import Mathlib

/-!
Shallow embedding of the core of the Phi-AI-Agent-Orchestation repository:

* `src/api/routes/legislative.py` — the gated six-state legislative state
  machine (`STATE_ORDER`, `REVIEW_GATES`, `advance_state`, `approve_gate`).
* `src/core/messaging/kafka_client.py` — the consumer's handler registration
  table and the dispatch loop of `KafkaConsumer.consume`.
* `src/agents/base/agent.py` — the base agent's handler dict, the wiring in
  `BaseAgent.start`, and `BaseAgent._handle_message`.

Python dicts are modelled as insertion-ordered association lists, exceptions
as `Except`, and the persisted JSON state as a structure.
-/

namespace Legislative

/-- The six legislative states, kept as strings exactly as the persisted JSON
and the `REVIEW_GATES` table store them. -/
def STATE_ORDER : List String :=
  ["PRE_EVT", "INTRO_EVT", "COMM_EVT", "FLOOR_EVT", "FINAL_EVT", "IMPL_EVT"]

/-- Static data of one review gate: the `from_state`/`to_state` binding and a
display name, as in the `REVIEW_GATES` dict. -/
structure Gate where
  from_state : String
  to_state : String
  name : String
deriving DecidableEq

/-- The `REVIEW_GATES` dict of `legislative.py`, in insertion order. -/
def REVIEW_GATES : List (String × Gate) :=
  [("HR_PRE", ⟨"PRE_EVT", "INTRO_EVT", "Approve Concept Direction"⟩),
   ("HR_LANG", ⟨"COMM_EVT", "FLOOR_EVT", "Approve Legislative Language"⟩),
   ("HR_MSG", ⟨"FLOOR_EVT", "FINAL_EVT", "Approve Messaging & Narrative"⟩),
   ("HR_RELEASE", ⟨"FINAL_EVT", "IMPL_EVT", "Authorize Public Release"⟩)]

/-- A per-gate record in the persisted `gates` map, as written by
`approve_gate`. -/
structure GateRecord where
  status : String
  approved_at : String
  approved_by : String
  notes : Option String
deriving DecidableEq

/-- One entry of the persisted `transitions` list, as written by
`advance_state` (lines 201-207 of `legislative.py`). -/
structure Transition where
  from_state : String
  to_state : String
  timestamp : String
  approved_by : String
  notes : Option String
deriving DecidableEq

/-- The persisted state file: `current_state`, the `transitions` log and the
`gates` map (modelled as an insertion-ordered association list). -/
structure PersistedState where
  current_state : String
  transitions : List Transition
  gates : List (String × GateRecord)
deriving DecidableEq

/-- Body of an `AdvanceRequest` (`approved_by` mandatory, `notes` optional). -/
structure AdvanceRequest where
  approved_by : String
  notes : Option String
deriving DecidableEq

/-- Errors raised by `advance_state`: an unknown `current_state` string
(`ValueError` from `LegislativeState(current)`), the terminal-state check
(HTTP 400 "Already at final state"), or the gate check (HTTP 400 naming the
gate). -/
inductive AdvanceError where
  | invalidState : AdvanceError
  | alreadyFinal : AdvanceError
  | gateNotApproved : String → AdvanceError
deriving DecidableEq

/-- Errors raised by `approve_gate`: unknown gate id (HTTP 404) or a gate not
bound to the current state (HTTP 400). -/
inductive GateApprovalError where
  | notFound : GateApprovalError
  | notActive : String → String → GateApprovalError
deriving DecidableEq

/-- Index of a string in a list, mirroring Python's `list.index` but returning
`none` instead of raising `ValueError`. -/
def findIndexFrom : List String → String → Option Nat
  | [], _ => none
  | x :: rest, st => if x == st then some 0 else (findIndexFrom rest st).map (· + 1)

/-- `STATE_ORDER.index(LegislativeState(current))` of the Python code. -/
def stateIndex (st : String) : Option Nat :=
  findIndexFrom STATE_ORDER st

/-- The immediate successor of a state in the fixed six-state order. -/
def nextState (st : String) : Option String :=
  match stateIndex st with
  | some i => STATE_ORDER.get? (i + 1)
  | none => none

/-- `state.get("gates", {}).get(gate_id, {}).get("status", "pending")`. -/
def gateStatus (s : PersistedState) (gate_id : String) : String :=
  match s.gates.find? (fun p => p.1 == gate_id) with
  | some p => p.2.status
  | none => "pending"

/-- Lookup of a gate record in the persisted `gates` map. -/
def lookupGate (gates : List (String × GateRecord)) (gate_id : String) :
    Option GateRecord :=
  (gates.find? (fun p => p.1 == gate_id)).map (fun p => p.2)

/-- Python dict assignment `gates[gate_id] = r`: replaces the value in place
if the key exists, otherwise appends the new key at the end. -/
def setGate : List (String × GateRecord) → String → GateRecord →
    List (String × GateRecord)
  | [], gid, r => [(gid, r)]
  | (k, v) :: rest, gid, r =>
    if k == gid then (gid, r) :: rest else (k, v) :: setGate rest gid r

/-- The gate scan of `advance_state` (lines 189-196): the first gate, in dict
order, whose `from_state` equals the current state and whose stored status is
not `"approved"`. -/
def findUnapprovedGate (s : PersistedState) : Option String :=
  (REVIEW_GATES.find? (fun p =>
      p.2.from_state == s.current_state && gateStatus s p.1 != "approved")).map
    (fun p => p.1)

/-- `advance_state` of `legislative.py` (lines 178-212) as a pure function on
the persisted state: raised `HTTPException`s become `.error`, and a successful
call returns the saved state (one transition appended, `current_state`
replaced by its successor). -/
def advance_state (req : AdvanceRequest) (timestamp : String)
    (s : PersistedState) : Except AdvanceError PersistedState :=
  match stateIndex s.current_state with
  | none => .error .invalidState
  | some i =>
    if STATE_ORDER.length - 1 ≤ i then .error .alreadyFinal
    else
      match findUnapprovedGate s with
      | some gid => .error (.gateNotApproved gid)
      | none =>
        let next := (STATE_ORDER.get? (i + 1)).getD s.current_state
        let t : Transition :=
          ⟨s.current_state, next, timestamp, req.approved_by, req.notes⟩
        .ok { s with
                current_state := next,
                transitions := s.transitions ++ [t] }

/-- `approve_gate` of `legislative.py` (lines 241-265) as a pure function:
404/400 `HTTPException`s become `.error`, success writes the gate record with
status `"approved"`, the timestamp, the approver and the notes. -/
def approve_gate (gate_id : String) (req : AdvanceRequest) (timestamp : String)
    (s : PersistedState) : Except GateApprovalError PersistedState :=
  match REVIEW_GATES.find? (fun p => p.1 == gate_id) with
  | none => .error .notFound
  | some p =>
    if p.2.from_state != s.current_state then
      .error (.notActive gate_id s.current_state)
    else
      .ok { s with
              gates := setGate s.gates gate_id
                ⟨"approved", timestamp, req.approved_by, req.notes⟩ }

/-- Repeated application of `advance_state`: on failure the persisted file is
untouched (the exception aborts the request before `_save_state`), so the
loop continues from the unchanged state. -/
def advanceSeq : List (AdvanceRequest × String) → PersistedState → PersistedState
  | [], s => s
  | (r, t) :: rest, s =>
    match advance_state r t s with
    | .ok s' => advanceSeq rest s'
    | .error _ => advanceSeq rest s

end Legislative

namespace Messaging

/-- The fields of an `AgentMessage` that the dispatch loop reads: `id` and the
routing `type`. -/
structure Msg where
  id : String
  type : String
deriving DecidableEq

/-- A registered handler: an identity (so invocations can be counted) and its
behaviour; `.error` models the handler raising an exception. -/
structure Handler where
  hid : Nat
  run : Msg → Except String Unit

/-- The consumer's `self._handlers : Dict[str, List[Callable]]`, as an
insertion-ordered association list. -/
abbrev HandlerTable := List (String × List Handler)

/-- Log lines emitted by the consumption loop that the claims talk about. -/
inductive LogEntry where
  | warnNoHandler : String → LogEntry
  | handlerError : String → String → LogEntry
deriving DecidableEq

/-- The mutable parts of a `KafkaConsumer` that `consume` touches: the
handler table and the emitted log. -/
structure ConsumerState where
  handlers : HandlerTable
  log : List LogEntry

/-- `KafkaConsumer.register_handler` (lines 296-311): create an empty list
for a fresh type, then append the handler to the type's list. -/
def registerHandler : HandlerTable → String → Handler → HandlerTable
  | [], t, h => [(t, [h])]
  | (k, hs) :: rest, t, h =>
    if k == t then (k, hs ++ [h]) :: rest
    else (k, hs) :: registerHandler rest t h

/-- `self._handlers.get(t)` on the consumer's table. -/
def lookupHandlers (tbl : HandlerTable) (t : String) : Option (List Handler) :=
  ((tbl : List (String × List Handler)).find? (fun p => p.1 == t)).map
    (fun p => p.2)

/-- In-place overwrite of an existing key's list, modelling the mutation of a
stored list obtained by reference from the dict. -/
def setHandlers : HandlerTable → String → List Handler → HandlerTable
  | [], _, _ => []
  | (k, hs) :: rest, t, l =>
    if k == t then (k, l) :: rest else (k, hs) :: setHandlers rest t l

/-- The `for handler in handlers` loop (lines 351-362): each handler is
invoked in order; a raised exception is caught and logged with the message
type, and the loop continues with the next handler. Returns the emitted log
lines and the invocation trace as `(handler id, message id)` pairs. -/
def runHandlers (handlers : List Handler) (m : Msg) :
    List LogEntry × List (Nat × String) :=
  handlers.foldl
    (fun acc h =>
      match h.run m with
      | .ok _ => (acc.1, acc.2 ++ [(h.hid, m.id)])
      | .error e =>
        (acc.1 ++ [.handlerError m.type e], acc.2 ++ [(h.hid, m.id)]))
    ([], [])

/-- Handler-table effect of one loop iteration plus the emitted log lines and
the invocation trace. `handlers = self._handlers.get(message.type, [])`
aliases the stored list when the key exists, so the following
`handlers.extend(self._handlers.get("*", []))` mutates the table entry in
place; when the key is absent the fresh default `[]` is extended instead and
the table is untouched. An empty result logs a warning and drops the
message. -/
def dispatchStep (tbl : HandlerTable) (m : Msg) :
    HandlerTable × List LogEntry × List (Nat × String) :=
  let stored := lookupHandlers tbl m.type
  let wild := (lookupHandlers tbl "*").getD []
  let handlers := stored.getD [] ++ wild
  let tbl2 :=
    match stored with
    | some _ => setHandlers tbl m.type handlers
    | none => tbl
  if handlers.isEmpty then (tbl2, [.warnNoHandler m.type], [])
  else
    let r := runHandlers handlers m
    (tbl2, r.1, r.2)

def consumeOne (cs : ConsumerState) (m : Msg) :
    ConsumerState × List (Nat × String) :=
  let r := dispatchStep cs.handlers m
  ({ handlers := r.1, log := cs.log ++ r.2.1 }, r.2.2)

/-- The consumption loop over a finite stream of records: each message is
processed by `consumeOne` and the loop always proceeds to the next one (no
handler exception escapes). Returns the final consumer state and the
per-message invocation traces in order. -/
def consumeLoop (cs : ConsumerState) :
    List Msg → ConsumerState × List (List (Nat × String))
  | [] => (cs, [])
  | m :: rest =>
    let r := consumeOne cs m
    let r2 := consumeLoop r.1 rest
    (r2.1, r.2 :: r2.2)

end Messaging

namespace Agent

open Messaging

/-- The counters of `AgentState` that the claims mention. -/
structure AgentState where
  messages_processed : Nat
  errors_count : Nat
deriving DecidableEq

/-- `BaseAgent.register_handler` (lines 185-205): plain dict assignment
`self._handlers[message_type] = func` — the value at an existing key is
replaced, a new key is appended. -/
def agentRegisterHandler : List (String × Handler) → String → Handler →
    List (String × Handler)
  | [], t, h => [(t, h)]
  | (k, v) :: rest, t, h =>
    if k == t then (t, h) :: rest else (k, v) :: agentRegisterHandler rest t h

/-- Lookup in the agent's handler dict. -/
def lookupAgentHandler (d : List (String × Handler)) (t : String) :
    Option Handler :=
  (d.find? (fun p => p.1 == t)).map (fun p => p.2)

/-- The handler wiring of `BaseAgent.start` (lines 134-136): every entry of
the agent's `_handlers` dict is registered, as is, with the consumer. -/
def agentStart (agentHandlers : List (String × Handler)) : HandlerTable :=
  agentHandlers.foldl (fun tbl p => registerHandler tbl p.1 p.2) []

/-- `BaseAgent._handle_message` (lines 207-248): bump `messages_processed`,
run `process`, and on an exception bump `errors_count`. Defined exactly as in
the source; note that nothing in `BaseAgent.start` or in
`KafkaConsumer.consume` ever calls it. -/
def handleMessage (a : AgentState) (process : Msg → Except String Unit)
    (m : Msg) : AgentState :=
  let a1 : AgentState :=
    { a with messages_processed := a.messages_processed + 1 }
  match process m with
  | .ok _ => a1
  | .error _ => { a1 with errors_count := a1.errors_count + 1 }

/-- `BaseAgent.run` with consumed topics: `start()` wires the raw handlers
into the consumer, then `consumer.consume()` runs the loop. The loop never
references `self.state`, so the agent counters pass through unchanged. -/
def agentRun (a : AgentState) (agentHandlers : List (String × Handler))
    (msgs : List Msg) :
    AgentState × ConsumerState × List (List (Nat × String)) :=
  let cs0 : ConsumerState := { handlers := agentStart agentHandlers, log := [] }
  let r := consumeLoop cs0 msgs
  (a, r.1, r.2)

end Agent

namespace Legislative

theorem stateIndex_lt_five (s : String) (hmem : s ∈ STATE_ORDER)
    (hne : s ≠ "IMPL_EVT") : ∃ i, stateIndex s = some i ∧ i < 5 := by
  simp only [STATE_ORDER, List.mem_cons, List.not_mem_nil, or_false] at hmem
  rcases hmem with h | h | h | h | h | h
  · exact ⟨0, by rw [h]; decide, by omega⟩
  · exact ⟨1, by rw [h]; decide, by omega⟩
  · exact ⟨2, by rw [h]; decide, by omega⟩
  · exact ⟨3, by rw [h]; decide, by omega⟩
  · exact ⟨4, by rw [h]; decide, by omega⟩
  · exact absurd h hne

theorem advance_unfold (req : AdvanceRequest) (ts : String) (s : PersistedState)
    (i : Nat) (hi : stateIndex s.current_state = some i) (hlt : i < 5) :
    advance_state req ts s =
      match findUnapprovedGate s with
      | some gid => .error (.gateNotApproved gid)
      | none =>
        .ok { s with
                current_state := (STATE_ORDER.get? (i + 1)).getD s.current_state,
                transitions := s.transitions ++
                  [⟨s.current_state,
                    (STATE_ORDER.get? (i + 1)).getD s.current_state,
                    ts, req.approved_by, req.notes⟩] } := by
  have h6 : STATE_ORDER.length = 6 := by rfl
  unfold advance_state
  rw [hi]
  dsimp only
  rw [if_neg (by rw [h6]; omega)]

theorem findUnapprovedGate_isSome_iff (s : PersistedState) :
    (findUnapprovedGate s).isSome = true ↔
      ∃ p ∈ REVIEW_GATES, p.2.from_state = s.current_state ∧
        gateStatus s p.1 ≠ "approved" := by
  unfold findUnapprovedGate
  rw [Option.isSome_map']
  rw [List.find?_isSome]
  constructor
  · rintro ⟨p, hp, hpred⟩
    refine ⟨p, hp, ?_⟩
    simpa [Bool.and_eq_true, beq_iff_eq, bne_iff_ne] using hpred
  · rintro ⟨p, hp, h1, h2⟩
    refine ⟨p, hp, ?_⟩
    simp [Bool.and_eq_true, beq_iff_eq, bne_iff_ne, h1, h2]

theorem findUnapprovedGate_eq_none_iff (s : PersistedState) :
    findUnapprovedGate s = none ↔
      ∀ p ∈ REVIEW_GATES, p.2.from_state = s.current_state →
        gateStatus s p.1 = "approved" := by
  unfold findUnapprovedGate
  rw [Option.map_eq_none']
  rw [List.find?_eq_none]
  constructor
  · intro h p hp hfrom
    have := h p hp
    simp only [Bool.and_eq_true, beq_iff_eq, bne_iff_ne, not_and, ne_eq,
      not_not] at this
    exact this hfrom
  · intro h p hp
    simp only [Bool.and_eq_true, beq_iff_eq, bne_iff_ne, not_and, ne_eq,
      not_not]
    exact h p hp

theorem get?_succ_of_lt_five (i : Nat) (hlt : i < 5) :
    ∃ v, STATE_ORDER.get? (i + 1) = some v ∧ v ∈ STATE_ORDER := by
  interval_cases i
  · exact ⟨_, rfl, by decide⟩
  · exact ⟨_, rfl, by decide⟩
  · exact ⟨_, rfl, by decide⟩
  · exact ⟨_, rfl, by decide⟩
  · exact ⟨_, rfl, by decide⟩

theorem advance_ok_inv (req : AdvanceRequest) (ts : String)
    (s s' : PersistedState) (h : advance_state req ts s = .ok s') :
    ∃ i, stateIndex s.current_state = some i ∧ i < 5 ∧
      STATE_ORDER.get? (i + 1) = some s'.current_state ∧
      s'.current_state ∈ STATE_ORDER ∧
      s'.transitions = s.transitions ++
        [⟨s.current_state, s'.current_state, ts, req.approved_by,
          req.notes⟩] ∧
      s'.gates = s.gates := by
  unfold advance_state at h
  split at h
  · exact absurd h (by simp)
  · rename_i i hidx
    split at h
    · exact absurd h (by simp)
    · rename_i hle
      have hlt : i < 5 := by
        have h6 : STATE_ORDER.length = 6 := by rfl
        rw [h6] at hle
        omega
      split at h
      · exact absurd h (by simp)
      · obtain ⟨v, hv, hvmem⟩ := get?_succ_of_lt_five i hlt
        simp only [Except.ok.injEq] at h
        subst h
        refine ⟨i, hidx, hlt, ?_, ?_, ?_, rfl⟩
        · simp only [hv, Option.getD_some]
        · simp only [hv, Option.getD_some]
          exact hvmem
        · simp only [hv, Option.getD_some]

/-- C1: from any persisted state whose `current_state` is a non-terminal one
of the six states, `advance_state` fails with the gate error exactly when
some gate of `REVIEW_GATES` is bound to the current state and its stored
status is not `"approved"`; when every such gate is approved it succeeds,
appends exactly one transition record, and moves `current_state` to the
immediate successor in the six-state order. -/
theorem advance_gate_error_iff_unapproved
    (req : AdvanceRequest) (ts : String) (s : PersistedState)
    (hmem : s.current_state ∈ STATE_ORDER)
    (hne : s.current_state ≠ "IMPL_EVT") :
    ((∃ gid, advance_state req ts s = .error (.gateNotApproved gid)) ↔
      ∃ p ∈ REVIEW_GATES, p.2.from_state = s.current_state ∧
        gateStatus s p.1 ≠ "approved") ∧
    ((∀ p ∈ REVIEW_GATES, p.2.from_state = s.current_state →
        gateStatus s p.1 = "approved") →
      ∃ s', advance_state req ts s = .ok s' ∧
        s'.transitions = s.transitions ++
          [⟨s.current_state, s'.current_state, ts, req.approved_by,
            req.notes⟩] ∧
        nextState s.current_state = some s'.current_state) := by
  obtain ⟨i, hi, hlt⟩ := stateIndex_lt_five s.current_state hmem hne
  have hadv := advance_unfold req ts s i hi hlt
  obtain ⟨v, hv, hvmem⟩ := get?_succ_of_lt_five i hlt
  constructor
  · constructor
    · rintro ⟨gid, hg⟩
      rw [← findUnapprovedGate_isSome_iff]
      cases hfind : findUnapprovedGate s with
      | none => rw [hfind] at hadv; rw [hadv] at hg; exact absurd hg (by simp)
      | some g => rfl
    · intro hex
      have hsome : (findUnapprovedGate s).isSome = true :=
        (findUnapprovedGate_isSome_iff s).mpr hex
      obtain ⟨g, hg⟩ := Option.isSome_iff_exists.mp hsome
      rw [hg] at hadv
      exact ⟨g, hadv⟩
  · intro hall
    have hnone : findUnapprovedGate s = none :=
      (findUnapprovedGate_eq_none_iff s).mpr hall
    rw [hnone] at hadv
    refine ⟨_, hadv, ?_, ?_⟩
    · simp [hv]
    · unfold nextState
      rw [hi]
      dsimp only
      simp only [hv, Option.getD_some]

theorem advanceSeq_mem (l : List (AdvanceRequest × String))
    (s : PersistedState) (hmem : s.current_state ∈ STATE_ORDER) :
    (advanceSeq l s).current_state ∈ STATE_ORDER := by
  induction l generalizing s with
  | nil => exact hmem
  | cons p rest ih =>
    obtain ⟨r, t⟩ := p
    cases hadv : advance_state r t s with
    | ok s' =>
      obtain ⟨_, _, _, _, hmem', _, _⟩ := advance_ok_inv r t s s' hadv
      unfold advanceSeq
      rw [hadv]
      exact ih s' hmem'
    | error e =>
      unfold advanceSeq
      rw [hadv]
      exact ih s hmem

/-- C2: starting from a state whose `current_state` is one of the six
enumerated values, any sequence of `advance_state` calls keeps
`current_state` in the six-value set; every individual successful call moves
`current_state` to exactly the immediate successor in the fixed order (never
backward, never skipping); and a call made at `IMPL_EVT` always fails with
the terminal-state error, returning no updated state. -/
theorem advance_forward_invariant
    (req : AdvanceRequest) (ts : String) (s : PersistedState)
    (l : List (AdvanceRequest × String))
    (hmem : s.current_state ∈ STATE_ORDER) :
    (advanceSeq l s).current_state ∈ STATE_ORDER ∧
    (∀ s', advance_state req ts s = .ok s' →
      nextState s.current_state = some s'.current_state ∧
      s'.current_state ∈ STATE_ORDER) ∧
    (s.current_state = "IMPL_EVT" →
      advance_state req ts s = .error .alreadyFinal) := by
  refine ⟨advanceSeq_mem l s hmem, ?_, ?_⟩
  · intro s' h
    obtain ⟨i, hidx, hlt, hget, hmem', _, _⟩ := advance_ok_inv req ts s s' h
    refine ⟨?_, hmem'⟩
    unfold nextState
    rw [hidx]
    exact hget
  · intro hcur
    unfold advance_state
    rw [hcur]
    rfl

/-- C2 witness: the theorem instantiated at the concrete state `INTRO_EVT`
(its hypothesis discharged by `decide`) with a one-element call sequence. -/
theorem advance_forward_invariant_witness :
    (advanceSeq [(⟨"a", none⟩, "t")] ⟨"INTRO_EVT", [], []⟩).current_state ∈
      STATE_ORDER ∧
    (∀ s', advance_state ⟨"b", none⟩ "t2" ⟨"INTRO_EVT", [], []⟩ = .ok s' →
      nextState "INTRO_EVT" = some s'.current_state ∧
      s'.current_state ∈ STATE_ORDER) ∧
    ("INTRO_EVT" = "IMPL_EVT" →
      advance_state ⟨"b", none⟩ "t2" ⟨"INTRO_EVT", [], []⟩ =
        .error .alreadyFinal) :=
  advance_forward_invariant ⟨"b", none⟩ "t2" ⟨"INTRO_EVT", [], []⟩
    [(⟨"a", none⟩, "t")] (by decide)

theorem lookupGate_cons (k : String) (v : GateRecord)
    (l : List (String × GateRecord)) (gid : String) :
    lookupGate ((k, v) :: l) gid =
      if k = gid then some v else lookupGate l gid := by
  unfold lookupGate
  by_cases h : k = gid
  · rw [List.find?_cons_of_pos _ (by simpa using h)]
    simp [h]
  · rw [List.find?_cons_of_neg _ (by simpa using h)]
    simp [h]

theorem setGate_lookup_self (g : List (String × GateRecord)) (gid : String)
    (r : GateRecord) : lookupGate (setGate g gid r) gid = some r := by
  induction g with
  | nil => simp [setGate, lookupGate_cons, lookupGate]
  | cons p rest ih =>
    obtain ⟨k, v⟩ := p
    unfold setGate
    by_cases hk : k = gid
    · rw [if_pos (by simpa using hk)]
      simp [lookupGate_cons]
    · rw [if_neg (by simpa using hk)]
      rw [lookupGate_cons]
      rw [if_neg hk]
      exact ih

theorem setGate_lookup_other (g : List (String × GateRecord))
    (gid gid' : String) (r : GateRecord) (hne : gid' ≠ gid) :
    lookupGate (setGate g gid r) gid' = lookupGate g gid' := by
  induction g with
  | nil =>
    simp only [setGate]
    rw [lookupGate_cons]
    rw [if_neg (fun h => hne h.symm)]
  | cons p rest ih =>
    obtain ⟨k, v⟩ := p
    unfold setGate
    by_cases hk : k = gid
    · rw [if_pos (by simpa using hk)]
      rw [lookupGate_cons, lookupGate_cons]
      rw [if_neg (fun h => hne h.symm)]
      rw [if_neg (fun h => hne (hk ▸ h).symm)]
    · rw [if_neg (by simpa using hk)]
      rw [lookupGate_cons, lookupGate_cons]
      by_cases hkg : k = gid'
      · rw [if_pos hkg, if_pos hkg]
      · rw [if_neg hkg, if_neg hkg]
        exact ih

theorem approve_gate_spec_aux (gid : String) (g : Gate) (req : AdvanceRequest)
    (ts : String) (s : PersistedState)
    (hfind : REVIEW_GATES.find? (fun p => p.1 == gid) = some (gid, g)) :
    (g.from_state ≠ s.current_state →
      approve_gate gid req ts s = .error (.notActive gid s.current_state)) ∧
    (g.from_state = s.current_state →
      ∃ s', approve_gate gid req ts s = .ok s' ∧
        lookupGate s'.gates gid =
          some ⟨"approved", ts, req.approved_by, req.notes⟩ ∧
        (∀ gid', gid' ≠ gid →
          lookupGate s'.gates gid' = lookupGate s.gates gid') ∧
        s'.current_state = s.current_state ∧
        s'.transitions = s.transitions) := by
  unfold approve_gate
  rw [hfind]
  dsimp only
  constructor
  · intro hne
    rw [if_pos (bne_iff_ne.mpr hne)]
  · intro heq
    rw [if_neg (by simp [heq])]
    refine ⟨_, rfl, ?_, ?_, rfl, rfl⟩
    · exact setGate_lookup_self s.gates gid _
    · intro gid' hne
      exact setGate_lookup_other s.gates gid gid' _ hne

/-- C3: for every gate id present in `REVIEW_GATES`, `approve_gate` fails
with the not-active gate error when the gate's bound `from_state` differs
from `current_state`; otherwise it succeeds, storing status `"approved"`,
the approver and the approval timestamp for that gate, while every other
gate's record, the current state and the transition log are unchanged. -/
theorem approve_gate_active_spec (gid : String) (g : Gate)
    (req : AdvanceRequest) (ts : String) (s : PersistedState)
    (hmem : (gid, g) ∈ REVIEW_GATES) :
    (g.from_state ≠ s.current_state →
      approve_gate gid req ts s = .error (.notActive gid s.current_state)) ∧
    (g.from_state = s.current_state →
      ∃ s', approve_gate gid req ts s = .ok s' ∧
        lookupGate s'.gates gid =
          some ⟨"approved", ts, req.approved_by, req.notes⟩ ∧
        (∀ gid', gid' ≠ gid →
          lookupGate s'.gates gid' = lookupGate s.gates gid') ∧
        s'.current_state = s.current_state ∧
        s'.transitions = s.transitions) := by
  have hfind : REVIEW_GATES.find? (fun p => p.1 == gid) = some (gid, g) := by
    simp only [REVIEW_GATES, List.mem_cons, List.not_mem_nil, or_false]
      at hmem
    rcases hmem with h | h | h | h <;>
      (rw [Prod.ext_iff] at h; obtain ⟨h1, h2⟩ := h; subst h1; subst h2;
        decide)
  exact approve_gate_spec_aux gid g req ts s hfind

/-- C3 witness: gate `HR_PRE` approved by `carol` from the initial state. -/
theorem approve_gate_active_spec_witness :
    ∃ s', approve_gate "HR_PRE" ⟨"carol", some "n"⟩ "t2"
        ⟨"PRE_EVT", [], []⟩ = .ok s' ∧
      lookupGate s'.gates "HR_PRE" =
        some ⟨"approved", "t2", "carol", some "n"⟩ ∧
      (∀ gid', gid' ≠ "HR_PRE" →
        lookupGate s'.gates gid' = lookupGate ([] : List (String × GateRecord))
          gid') ∧
      s'.current_state = "PRE_EVT" ∧
      s'.transitions = [] :=
  (approve_gate_active_spec "HR_PRE" ⟨"PRE_EVT", "INTRO_EVT",
      "Approve Concept Direction"⟩ ⟨"carol", some "n"⟩ "t2"
      ⟨"PRE_EVT", [], []⟩ (by decide)).2 rfl

/-- C10: approving a gate a second time while its `from_state` still equals
`current_state` does not fail: `approve_gate` succeeds again and the stored
record afterwards holds the second caller's timestamp, approver and notes,
overwriting the first approval. -/
theorem approve_gate_reapprove_overwrites (gid : String) (g : Gate)
    (req1 req2 : AdvanceRequest) (ts1 ts2 : String) (s : PersistedState)
    (hmem : (gid, g) ∈ REVIEW_GATES)
    (hact : g.from_state = s.current_state) :
    ∃ s1 s2, approve_gate gid req1 ts1 s = .ok s1 ∧
      lookupGate s1.gates gid =
        some ⟨"approved", ts1, req1.approved_by, req1.notes⟩ ∧
      approve_gate gid req2 ts2 s1 = .ok s2 ∧
      lookupGate s2.gates gid =
        some ⟨"approved", ts2, req2.approved_by, req2.notes⟩ := by
  obtain ⟨s1, h1, hrec1, _, hcur1, _⟩ :=
    (approve_gate_active_spec gid g req1 ts1 s hmem).2 hact
  obtain ⟨s2, h2, hrec2, _, _, _⟩ :=
    (approve_gate_active_spec gid g req2 ts2 s1 hmem).2 (hact.trans hcur1.symm)
  exact ⟨s1, s2, h1, hrec1, h2, hrec2⟩

/-- C10 witness: `HR_PRE` approved by `carol` then by `dave`; the stored
record afterwards is `dave`'s. -/
theorem approve_gate_reapprove_overwrites_witness :
    ∃ s1 s2, approve_gate "HR_PRE" ⟨"carol", none⟩ "t2"
        ⟨"PRE_EVT", [], []⟩ = .ok s1 ∧
      lookupGate s1.gates "HR_PRE" = some ⟨"approved", "t2", "carol", none⟩ ∧
      approve_gate "HR_PRE" ⟨"dave", none⟩ "t3" s1 = .ok s2 ∧
      lookupGate s2.gates "HR_PRE" = some ⟨"approved", "t3", "dave", none⟩ :=
  approve_gate_reapprove_overwrites "HR_PRE"
    ⟨"PRE_EVT", "INTRO_EVT", "Approve Concept Direction"⟩
    ⟨"carol", none⟩ ⟨"dave", none⟩ "t2" "t3" ⟨"PRE_EVT", [], []⟩
    (by decide) rfl

/-- C1 witness: in the concrete state `COMM_EVT` with gate `HR_LANG`
approved, the theorem applies and yields the successful advance to
`FLOOR_EVT`. -/
theorem advance_gate_error_iff_unapproved_witness :
    ∃ s', advance_state ⟨"alice", none⟩ "t1"
        ⟨"COMM_EVT", [], [("HR_LANG", ⟨"approved", "t0", "bob", none⟩)]⟩ =
          .ok s' ∧
      s'.transitions = [] ++ [⟨"COMM_EVT", s'.current_state, "t1", "alice",
        none⟩] ∧
      nextState "COMM_EVT" = some s'.current_state :=
  (advance_gate_error_iff_unapproved ⟨"alice", none⟩ "t1"
    ⟨"COMM_EVT", [], [("HR_LANG", ⟨"approved", "t0", "bob", none⟩)]⟩
    (by decide) (by decide)).2 (by decide)

/-- C6 counterexample: at `COMM_EVT` with `HR_LANG` approved, a successful
advance by `alice` appends a transition record that does contain
`approved_by = "alice"` (the code writes `request.approved_by` into the
transition dict), refuting the claim that the record carries no
`approved_by` value. -/
theorem advance_transition_carries_approver_cex :
    advance_state ⟨"alice", none⟩ "t1"
        ⟨"COMM_EVT", [], [("HR_LANG", ⟨"approved", "t0", "bob", none⟩)]⟩ =
      .ok ⟨"FLOOR_EVT",
        [⟨"COMM_EVT", "FLOOR_EVT", "t1", "alice", none⟩],
        [("HR_LANG", ⟨"approved", "t0", "bob", none⟩)]⟩ := by
  rfl

/-- C6 amended: whenever `advance_state` succeeds, the single record appended
to the transitions log contains the from-state, the to-state and the
timestamp, and also `approved_by` set to the requester (and the request's
notes) — the approver is recorded on the transition as well as on the gate. -/
theorem advance_transition_contains_approver (req : AdvanceRequest)
    (ts : String) (s s' : PersistedState)
    (h : advance_state req ts s = .ok s') :
    s'.transitions = s.transitions ++
      [⟨s.current_state, s'.current_state, ts, req.approved_by,
        req.notes⟩] := by
  obtain ⟨_, _, _, _, _, htr, _⟩ := advance_ok_inv req ts s s' h
  exact htr

/-- C6 amended witness: the concrete advance of the counterexample input,
whose appended record carries `approved_by = "alice"`. -/
theorem advance_transition_contains_approver_witness :
    ([⟨"COMM_EVT", "FLOOR_EVT", "t1", "alice", none⟩] : List Transition) =
      [] ++ [⟨"COMM_EVT", "FLOOR_EVT", "t1", "alice", none⟩] :=
  advance_transition_contains_approver ⟨"alice", none⟩ "t1"
    ⟨"COMM_EVT", [], [("HR_LANG", ⟨"approved", "t0", "bob", none⟩)]⟩
    ⟨"FLOOR_EVT", [⟨"COMM_EVT", "FLOOR_EVT", "t1", "alice", none⟩],
      [("HR_LANG", ⟨"approved", "t0", "bob", none⟩)]⟩
    (by rfl)

/-- C8 counterexample: `REVIEW_GATES` holds four gates, not five — there are
five non-terminal states but no gate at all is bound to `INTRO_EVT`. -/
theorem review_gates_not_five_cex :
    ¬ (REVIEW_GATES.length = 5) ∧
    (STATE_ORDER.length - 1 = 5) ∧
    REVIEW_GATES.find? (fun p => p.2.from_state == "INTRO_EVT") = none := by
  decide

/-- C8 amended: the declared review gates are exactly four — one fewer than
the five non-terminal states; each gate is bound to one adjacent
`(from_state, to_state)` pair of the six-state order, each bound `from_state`
is a distinct non-terminal state, and `INTRO_EVT` has no gate (free
advancement). -/
theorem review_gates_structure :
    REVIEW_GATES.length = 4 ∧
    STATE_ORDER.length - 1 = 5 ∧
    (∀ p ∈ REVIEW_GATES, nextState p.2.from_state = some p.2.to_state) ∧
    (REVIEW_GATES.map (fun p => p.2.from_state)).Nodup ∧
    (∀ p ∈ REVIEW_GATES,
      p.2.from_state ∈ STATE_ORDER ∧ p.2.from_state ≠ "IMPL_EVT" ∧
        p.2.from_state ≠ "INTRO_EVT") := by
  decide

end Legislative

namespace Messaging

theorem lookupHandlers_cons (k : String) (v : List Handler)
    (l : HandlerTable) (t : String) :
    lookupHandlers ((k, v) :: l) t =
      if k = t then some v else lookupHandlers l t := by
  unfold lookupHandlers
  by_cases h : k = t
  · rw [List.find?_cons_of_pos _ (by simpa using h)]
    simp [h]
  · rw [List.find?_cons_of_neg _ (by simpa using h)]
    simp [h]

theorem registerHandler_lookup_self (tbl : HandlerTable) (t : String)
    (h : Handler) :
    lookupHandlers (registerHandler tbl t h) t =
      some ((lookupHandlers tbl t).getD [] ++ [h]) := by
  induction tbl with
  | nil =>
    show lookupHandlers [(t, [h])] t = _
    rw [lookupHandlers_cons]
    simp [lookupHandlers]
  | cons p rest ih =>
    obtain ⟨k, v⟩ := p
    unfold registerHandler
    by_cases hk : k = t
    · rw [if_pos (by simpa using hk)]
      rw [lookupHandlers_cons, lookupHandlers_cons]
      rw [if_pos hk, if_pos hk]
      simp
    · rw [if_neg (by simpa using hk)]
      rw [lookupHandlers_cons, lookupHandlers_cons]
      rw [if_neg hk, if_neg hk]
      exact ih

theorem setHandlers_lookup_self (tbl : HandlerTable) (t : String)
    (l : List Handler) (hs : (lookupHandlers tbl t).isSome = true) :
    lookupHandlers (setHandlers tbl t l) t = some l := by
  induction tbl with
  | nil => simp [lookupHandlers] at hs
  | cons p rest ih =>
    obtain ⟨k, v⟩ := p
    unfold setHandlers
    by_cases hk : k = t
    · rw [if_pos (by simpa using hk)]
      rw [lookupHandlers_cons]
      rw [if_pos hk]
    · rw [if_neg (by simpa using hk)]
      rw [lookupHandlers_cons, if_neg hk]
      rw [lookupHandlers_cons, if_neg hk] at hs
      exact ih hs

theorem setHandlers_lookup_other (tbl : HandlerTable) (t u : String)
    (l : List Handler) (hne : u ≠ t) :
    lookupHandlers (setHandlers tbl t l) u = lookupHandlers tbl u := by
  induction tbl with
  | nil => rfl
  | cons p rest ih =>
    obtain ⟨k, v⟩ := p
    unfold setHandlers
    by_cases hk : k = t
    · rw [if_pos (by simpa using hk)]
      rw [lookupHandlers_cons, lookupHandlers_cons]
      rw [if_neg (hk ▸ fun h => hne h.symm)]
      rw [if_neg (fun h => hne ((hk ▸ h : (t = u))).symm)]
    · rw [if_neg (by simpa using hk)]
      rw [lookupHandlers_cons, lookupHandlers_cons]
      by_cases hku : k = u
      · rw [if_pos hku, if_pos hku]
      · rw [if_neg hku, if_neg hku]
        exact ih

theorem runHandlers_foldl_trace (m : Msg) (handlers : List Handler)
    (acc : List LogEntry × List (Nat × String)) :
    (handlers.foldl
      (fun acc h =>
        match h.run m with
        | .ok _ => (acc.1, acc.2 ++ [(h.hid, m.id)])
        | .error e =>
          (acc.1 ++ [.handlerError m.type e], acc.2 ++ [(h.hid, m.id)]))
      acc).2 = acc.2 ++ handlers.map (fun h => (h.hid, m.id)) := by
  induction handlers generalizing acc with
  | nil => simp
  | cons h rest ih =>
    rw [List.foldl_cons]
    cases hr : h.run m with
    | ok u =>
      rw [ih]
      simp
    | error e =>
      rw [ih]
      simp

theorem runHandlers_trace (handlers : List Handler) (m : Msg) :
    (runHandlers handlers m).2 = handlers.map (fun h => (h.hid, m.id)) := by
  unfold runHandlers
  rw [runHandlers_foldl_trace]
  simp

theorem dispatchStep_no_handler (tbl : HandlerTable) (m : Msg)
    (h1 : lookupHandlers tbl m.type = none)
    (h2 : lookupHandlers tbl "*" = none) :
    dispatchStep tbl m = (tbl, [.warnNoHandler m.type], []) := by
  unfold dispatchStep
  rw [h1, h2]
  rfl

theorem dispatchStep_no_wildcard (tbl : HandlerTable) (m : Msg)
    (L : List Handler) (hL : lookupHandlers tbl m.type = some L)
    (hw : lookupHandlers tbl "*" = none) (hne : L ≠ []) :
    dispatchStep tbl m =
      (setHandlers tbl m.type L, (runHandlers L m).1,
        L.map (fun h => (h.hid, m.id))) := by
  unfold dispatchStep
  rw [hL, hw]
  dsimp only [Option.getD_some, Option.getD_none]
  rw [List.append_nil]
  rw [if_neg (by simpa using hne)]
  rw [runHandlers_trace]

theorem dispatchStep_wildcard_mutation (tbl : HandlerTable) (m : Msg)
    (H W : List Handler) (hH : lookupHandlers tbl m.type = some H)
    (hW : lookupHandlers tbl "*" = some W) (hne : m.type ≠ "*")
    (hWne : W ≠ []) :
    lookupHandlers (dispatchStep tbl m).1 m.type = some (H ++ W) ∧
    lookupHandlers (dispatchStep tbl m).1 "*" = some W ∧
    (dispatchStep tbl m).2.2 = (H ++ W).map (fun h => (h.hid, m.id)) := by
  have hemp : ¬ ((H ++ W).isEmpty = true) := by
    simp only [List.isEmpty_eq_true, List.append_eq_nil]
    exact fun hc => hWne hc.2
  have hstep : dispatchStep tbl m =
      (setHandlers tbl m.type (H ++ W), (runHandlers (H ++ W) m).1,
        (H ++ W).map (fun h => (h.hid, m.id))) := by
    unfold dispatchStep
    rw [hH, hW]
    dsimp only [Option.getD_some]
    rw [if_neg hemp]
    rw [runHandlers_trace]
  rw [hstep]
  refine ⟨?_, ?_, rfl⟩
  · exact setHandlers_lookup_self tbl m.type (H ++ W) (by rw [hH]; rfl)
  · rw [setHandlers_lookup_other tbl m.type _ _ (fun h => hne h.symm)]
    exact hW

theorem consumeLoop_cons_eq (cs : ConsumerState) (m : Msg) (rest : List Msg) :
    consumeLoop cs (m :: rest) =
      ((consumeLoop (consumeOne cs m).1 rest).1,
        (consumeOne cs m).2 :: (consumeLoop (consumeOne cs m).1 rest).2) :=
  rfl

theorem consumeLoop_log_inv (msgs : List Msg) (h : HandlerTable)
    (l l' : List LogEntry) :
    (consumeLoop ⟨h, l⟩ msgs).1.handlers =
      (consumeLoop ⟨h, l'⟩ msgs).1.handlers ∧
    (consumeLoop ⟨h, l⟩ msgs).2 = (consumeLoop ⟨h, l'⟩ msgs).2 := by
  induction msgs generalizing h l l' with
  | nil => exact ⟨rfl, rfl⟩
  | cons m rest ih =>
    rw [consumeLoop_cons_eq, consumeLoop_cons_eq]
    dsimp only [consumeOne]
    obtain ⟨ha, hb⟩ := ih (dispatchStep h m).1 (l ++ (dispatchStep h m).2.1)
      (l' ++ (dispatchStep h m).2.1)
    exact ⟨ha, by rw [hb]⟩

end Messaging

namespace Messaging

/-- C7: a consumed message whose type has no registered handler (and no
wildcard handler) is dropped without any exception: the step returns
normally, appends exactly the warning log line, invokes no handler (empty
trace), and leaves the handler table unchanged, so every subsequent message
is dispatched exactly as it would have been from the original table. -/
theorem consume_unroutable_spec (cs : ConsumerState) (m : Msg)
    (rest : List Msg)
    (hnoh : lookupHandlers cs.handlers m.type = none)
    (hnow : lookupHandlers cs.handlers "*" = none) :
    consumeOne cs m =
      ({ handlers := cs.handlers, log := cs.log ++ [.warnNoHandler m.type] },
        []) ∧
    (consumeLoop cs (m :: rest)).2 = [] :: (consumeLoop cs rest).2 ∧
    (consumeLoop cs (m :: rest)).1.handlers =
      (consumeLoop cs rest).1.handlers := by
  obtain ⟨htbl, lg⟩ := cs
  have hd := dispatchStep_no_handler htbl m hnoh hnow
  have hone : consumeOne ⟨htbl, lg⟩ m =
      ({ handlers := htbl, log := lg ++ [.warnNoHandler m.type] }, []) := by
    unfold consumeOne
    rw [hd]
  refine ⟨hone, ?_, ?_⟩
  · rw [consumeLoop_cons_eq]
    rw [hone]
    dsimp only
    exact congrArg (fun x => [] :: x)
      (consumeLoop_log_inv rest htbl
        (lg ++ [LogEntry.warnNoHandler m.type]) lg).2
  · rw [consumeLoop_cons_eq]
    rw [hone]
    dsimp only
    exact (consumeLoop_log_inv rest htbl
      (lg ++ [LogEntry.warnNoHandler m.type]) lg).1

/-- C7 witness: a message of unroutable type `u` is dropped with a warning
and the following message of type `t` is still dispatched from the unchanged
table. -/
theorem consume_unroutable_spec_witness :
    consumeOne ⟨[("t", [⟨1, fun _ => .ok ()⟩])], []⟩ ⟨"m1", "u"⟩ =
      ({ handlers := [("t", [⟨1, fun _ => .ok ()⟩])],
         log := [] ++ [.warnNoHandler "u"] }, []) ∧
    (consumeLoop ⟨[("t", [⟨1, fun _ => .ok ()⟩])], []⟩
        [⟨"m1", "u"⟩, ⟨"m2", "t"⟩]).2 =
      [] :: (consumeLoop ⟨[("t", [⟨1, fun _ => .ok ()⟩])], []⟩
        [⟨"m2", "t"⟩]).2 ∧
    (consumeLoop ⟨[("t", [⟨1, fun _ => .ok ()⟩])], []⟩
        [⟨"m1", "u"⟩, ⟨"m2", "t"⟩]).1.handlers =
      (consumeLoop ⟨[("t", [⟨1, fun _ => .ok ()⟩])], []⟩
        [⟨"m2", "t"⟩]).1.handlers :=
  consume_unroutable_spec ⟨[("t", [⟨1, fun _ => .ok ()⟩])], []⟩ ⟨"m1", "u"⟩
    [⟨"m2", "t"⟩] rfl rfl

end Messaging

namespace Messaging

theorem flatten_replicate_succ (k : Nat) (W : List Handler) :
    (List.replicate (k + 1) W).flatten = W ++ (List.replicate k W).flatten := by
  rw [List.replicate_succ, List.flatten_cons]

theorem count_flatten_replicate (n : Nat) (W : List Nat) (a : Nat) :
    List.count a (List.replicate n W).flatten = n * List.count a W := by
  induction n with
  | zero => simp
  | succ k ih =>
    rw [List.replicate_succ, List.flatten_cons, List.count_append, ih]
    ring

theorem map_hid_flatten_replicate (n : Nat) (W : List Handler) :
    ((List.replicate n W).flatten).map Handler.hid =
      (List.replicate n (W.map Handler.hid)).flatten := by
  induction n with
  | zero => simp
  | succ k ih =>
    rw [List.replicate_succ, List.flatten_cons, List.map_append, ih,
      List.replicate_succ, List.flatten_cons]

theorem consume_wildcard_aux (msgs : List Msg) (tbl : HandlerTable)
    (t : String) (H W : List Handler) (l : List LogEntry)
    (hall : ∀ m ∈ msgs, m.type = t) (hne : t ≠ "*") (hWne : W ≠ [])
    (hH : lookupHandlers tbl t = some H)
    (hW : lookupHandlers tbl "*" = some W) :
    lookupHandlers (consumeLoop ⟨tbl, l⟩ msgs).1.handlers t =
      some (H ++ (List.replicate msgs.length W).flatten) ∧
    ∀ k m, msgs.get? k = some m →
      (consumeLoop ⟨tbl, l⟩ msgs).2.get? k =
        some ((H ++ (List.replicate (k + 1) W).flatten).map
          (fun h => (h.hid, m.id))) := by
  induction msgs generalizing tbl H l with
  | nil =>
    refine ⟨by simpa using hH, ?_⟩
    intro k m hk
    simp at hk
  | cons m0 rest ih =>
    have hm0 : m0.type = t := hall m0 (List.mem_cons_self m0 rest)
    have hd := dispatchStep_wildcard_mutation tbl m0 H W
      (by rw [hm0]; exact hH) hW (by rw [hm0]; exact hne) hWne
    have hallr : ∀ m ∈ rest, m.type = t :=
      fun m hm => hall m (List.mem_cons_of_mem m0 hm)
    have hHr : lookupHandlers (dispatchStep tbl m0).1 t = some (H ++ W) := by
      rw [← hm0]
      exact hd.1
    obtain ⟨iha, ihb⟩ := ih (dispatchStep tbl m0).1 (H ++ W)
      (l ++ (dispatchStep tbl m0).2.1) hallr hHr hd.2.1
    rw [consumeLoop_cons_eq]
    dsimp only [consumeOne]
    constructor
    · rw [iha]
      rw [List.length_cons, flatten_replicate_succ, ← List.append_assoc]
    · intro k m hk
      cases k with
      | zero =>
        rw [List.get?_cons_zero] at hk
        injection hk with hk0
        subst hk0
        rw [List.get?_cons_zero]
        rw [hd.2.2]
        simp
      | succ k2 =>
        rw [List.get?_cons_succ] at hk
        rw [List.get?_cons_succ]
        rw [ihb k2 m hk]
        rw [flatten_replicate_succ (k2 + 1), ← List.append_assoc]

/-- C9: dispatching is not table-neutral — when wildcard handlers are
registered under `"*"` and the dispatched type `t` also has stored handlers,
`consume` appends the wildcard list onto the stored list for `t` itself (the
`handlers.extend` mutates the aliased dict entry), so after `n` messages of
type `t` the stored list is the original plus `n` copies of the wildcard
list, and the `n`-th dispatched message of type `t` invokes each wildcard
handler `n` times rather than once. -/
theorem consume_wildcard_replication (tbl : HandlerTable) (t : String)
    (H W : List Handler) (l : List LogEntry) (msgs : List Msg)
    (hall : ∀ m ∈ msgs, m.type = t) (hne : t ≠ "*") (hWne : W ≠ [])
    (hH : lookupHandlers tbl t = some H)
    (hW : lookupHandlers tbl "*" = some W) :
    lookupHandlers (consumeLoop ⟨tbl, l⟩ msgs).1.handlers t =
      some (H ++ (List.replicate msgs.length W).flatten) ∧
    ∀ k m, msgs.get? k = some m →
      (consumeLoop ⟨tbl, l⟩ msgs).2.get? k =
        some ((H ++ (List.replicate (k + 1) W).flatten).map
          (fun h => (h.hid, m.id))) ∧
      ∀ a : Nat, a ∉ H.map Handler.hid →
        List.count a (W.map Handler.hid) = 1 →
        List.count a
          ((((consumeLoop ⟨tbl, l⟩ msgs).2.get? k).getD []).map Prod.fst) =
          k + 1 := by
  obtain ⟨ha, hb⟩ := consume_wildcard_aux msgs tbl t H W l hall hne hWne hH hW
  refine ⟨ha, ?_⟩
  intro k m hk
  refine ⟨hb k m hk, ?_⟩
  intro a hnotH hcnt
  rw [hb k m hk]
  rw [Option.getD_some]
  rw [List.map_map]
  have hcomp : (Prod.fst ∘ fun h : Handler => (h.hid, m.id)) = Handler.hid :=
    rfl
  rw [hcomp]
  rw [List.map_append, List.count_append]
  rw [List.count_eq_zero.mpr hnotH]
  rw [map_hid_flatten_replicate, count_flatten_replicate, hcnt]
  ring

/-- C9 witness: one stored handler for `"t"` and one wildcard handler; after
two messages of type `"t"`, the second dispatch trace invokes the wildcard
handler (id 2) twice. -/
theorem consume_wildcard_replication_witness :
    (consumeLoop ⟨[("t", [⟨1, fun _ => .ok ()⟩]),
        ("*", [⟨2, fun _ => .ok ()⟩])], []⟩
      [⟨"m1", "t"⟩, ⟨"m2", "t"⟩]).2.get? 1 =
      some ((([(⟨1, fun _ => .ok ()⟩ : Handler)] ++
        (List.replicate 2 [(⟨2, fun _ => .ok ()⟩ : Handler)]).flatten).map
          (fun h => (h.hid, "m2")))) ∧
    List.count 2
      ((((consumeLoop ⟨[("t", [⟨1, fun _ => .ok ()⟩]),
          ("*", [⟨2, fun _ => .ok ()⟩])], []⟩
        [⟨"m1", "t"⟩, ⟨"m2", "t"⟩]).2.get? 1).getD []).map Prod.fst) = 2 := by
  have h := (consume_wildcard_replication
    [("t", [⟨1, fun _ => .ok ()⟩]), ("*", [⟨2, fun _ => .ok ()⟩])] "t"
    [⟨1, fun _ => .ok ()⟩] [⟨2, fun _ => .ok ()⟩] []
    [⟨"m1", "t"⟩, ⟨"m2", "t"⟩]
    (by decide)
    (by decide) (by simp) rfl rfl).2 1 ⟨"m2", "t"⟩ rfl
  exact ⟨h.1, h.2 2 (by simp) (by rfl)⟩

end Messaging

namespace Messaging

/-- C5 counterexample: registering two handlers for the same type `"t"` on
`KafkaConsumer.register_handler` keeps both (ids 1 then 2) in the stored
list, and dispatching a `"t"` message invokes both in registration order —
not only the most recent one. -/
theorem register_twice_keeps_both_cex :
    ((lookupHandlers (registerHandler (registerHandler []
        "t" ⟨1, fun _ => .ok ()⟩) "t" ⟨2, fun _ => .ok ()⟩) "t").getD
      []).map Handler.hid = [1, 2] ∧
    (consumeOne ⟨registerHandler (registerHandler []
        "t" ⟨1, fun _ => .ok ()⟩) "t" ⟨2, fun _ => .ok ()⟩, []⟩
      ⟨"m1", "t"⟩).2 = [(1, "m1"), (2, "m1")] :=
  ⟨rfl, rfl⟩

end Messaging

namespace Agent

open Messaging

theorem lookupAgentHandler_cons (k : String) (v : Handler)
    (rest : List (String × Handler)) (t : String) :
    lookupAgentHandler ((k, v) :: rest) t =
      if k = t then some v else lookupAgentHandler rest t := by
  unfold lookupAgentHandler
  by_cases h : k = t
  · rw [List.find?_cons_of_pos _ (by simpa using h)]
    simp [h]
  · rw [List.find?_cons_of_neg _ (by simpa using h)]
    simp [h]

theorem agentRegisterHandler_lookup_self (d : List (String × Handler))
    (t : String) (h : Handler) :
    lookupAgentHandler (agentRegisterHandler d t h) t = some h := by
  induction d with
  | nil =>
    show lookupAgentHandler [(t, h)] t = some h
    rw [lookupAgentHandler_cons]
    simp
  | cons p rest ih =>
    obtain ⟨k, v⟩ := p
    unfold agentRegisterHandler
    by_cases hk : k = t
    · rw [if_pos (by simpa using hk)]
      rw [lookupAgentHandler_cons]
      simp
    · rw [if_neg (by simpa using hk)]
      rw [lookupAgentHandler_cons, if_neg hk]
      exact ih

/-- C5 amended: on the subscriber's registration surface
(`KafkaConsumer.register_handler`) a second registration for the same type
does not replace the first — both handlers are kept in registration order and
dispatching a message of that type invokes each of them in that order; it is
the agent runtime's dict (`BaseAgent.register_handler`) on which the most
recent registration silently wins. -/
theorem register_same_type_both_kept (tbl : HandlerTable) (t : String)
    (h1 h2 : Handler) (d : List (String × Handler)) (m : Msg)
    (l : List LogEntry) (hmt : m.type = t)
    (hw : lookupHandlers (registerHandler (registerHandler tbl t h1) t h2)
      "*" = none) :
    lookupHandlers (registerHandler (registerHandler tbl t h1) t h2) t =
      some ((lookupHandlers tbl t).getD [] ++ [h1, h2]) ∧
    (consumeOne ⟨registerHandler (registerHandler tbl t h1) t h2, l⟩ m).2 =
      ((lookupHandlers tbl t).getD [] ++ [h1, h2]).map
        (fun h => (h.hid, m.id)) ∧
    lookupAgentHandler (agentRegisterHandler (agentRegisterHandler d t h1)
      t h2) t = some h2 := by
  have hself : lookupHandlers (registerHandler (registerHandler tbl t h1)
      t h2) t = some ((lookupHandlers tbl t).getD [] ++ [h1, h2]) := by
    rw [registerHandler_lookup_self, registerHandler_lookup_self]
    simp
  refine ⟨hself, ?_,
    agentRegisterHandler_lookup_self (agentRegisterHandler d t h1) t h2⟩
  have hL : lookupHandlers (registerHandler (registerHandler tbl t h1) t h2)
      m.type = some ((lookupHandlers tbl t).getD [] ++ [h1, h2]) := by
    rw [hmt]
    exact hself
  have hd := dispatchStep_no_wildcard
    (registerHandler (registerHandler tbl t h1) t h2) m
    ((lookupHandlers tbl t).getD [] ++ [h1, h2]) hL hw (by simp)
  show (dispatchStep (registerHandler (registerHandler tbl t h1) t h2)
    m).2.2 = _
  rw [hd]

/-- C5 amended witness: two registrations for type `"t"` on an empty
consumer table (ids 1 then 2) and one on an empty agent dict. -/
theorem register_same_type_both_kept_witness :
    lookupHandlers (registerHandler (registerHandler []
        "t" ⟨1, fun _ => .ok ()⟩) "t" ⟨2, fun _ => .ok ()⟩) "t" =
      some ((lookupHandlers ([] : HandlerTable) "t").getD [] ++
        ([⟨1, fun _ => .ok ()⟩, ⟨2, fun _ => .ok ()⟩] : List Handler)) ∧
    (consumeOne ⟨registerHandler (registerHandler []
        "t" ⟨1, fun _ => .ok ()⟩) "t" ⟨2, fun _ => .ok ()⟩, []⟩
      ⟨"m1", "t"⟩).2 =
      ((lookupHandlers ([] : HandlerTable) "t").getD [] ++
        ([⟨1, fun _ => .ok ()⟩, ⟨2, fun _ => .ok ()⟩] : List Handler)).map
          (fun h => (h.hid, "m1")) ∧
    lookupAgentHandler (agentRegisterHandler (agentRegisterHandler []
      "t" ⟨1, fun _ => .ok ()⟩) "t" ⟨2, fun _ => .ok ()⟩) "t" =
      some ⟨2, fun _ => .ok ()⟩ :=
  register_same_type_both_kept [] "t" ⟨1, fun _ => .ok ()⟩
    ⟨2, fun _ => .ok ()⟩ [] ⟨"m1", "t"⟩ [] rfl rfl

/-- C4: a handler exception is caught inside the consumption loop — the
error is logged with the message type, the loop dispatches the next message
normally — but the agent's `errors_count` stays at 0, because
`BaseAgent.start` registers the raw handlers and the only code that
increments the counter, `BaseAgent._handle_message`, is never invoked; had
the handler been routed through `_handle_message`, both counters would have
been bumped (last conjunct). -/
theorem agent_error_counter_not_incremented :
    (agentRun ⟨0, 0⟩
      [("scan_command", ⟨3, fun _ => .error "boom"⟩),
       ("other_evt", ⟨1, fun _ => .ok ()⟩)]
      [⟨"m1", "scan_command"⟩, ⟨"m2", "other_evt"⟩]).1 =
        (⟨0, 0⟩ : AgentState) ∧
    (agentRun ⟨0, 0⟩
      [("scan_command", ⟨3, fun _ => .error "boom"⟩),
       ("other_evt", ⟨1, fun _ => .ok ()⟩)]
      [⟨"m1", "scan_command"⟩, ⟨"m2", "other_evt"⟩]).2.2 =
        [[(3, "m1")], [(1, "m2")]] ∧
    (agentRun ⟨0, 0⟩
      [("scan_command", ⟨3, fun _ => .error "boom"⟩),
       ("other_evt", ⟨1, fun _ => .ok ()⟩)]
      [⟨"m1", "scan_command"⟩, ⟨"m2", "other_evt"⟩]).2.1.log =
        [.handlerError "scan_command" "boom"] ∧
    handleMessage ⟨0, 0⟩ (fun _ => .error "boom") ⟨"m1", "scan_command"⟩ =
      (⟨1, 1⟩ : AgentState) :=
  ⟨rfl, rfl, rfl, rfl⟩

end Agent
